import Mathlib

/-!
Verification of the snapchat-export download core.

This file shallowly embeds the downloader, bundle extractor and manifest
modules of the repository (src/downloader.ts as concatenated inside
src/compositor.ts, and src/manifest.ts) and proves the frozen claims
C1..C10 about them.

Modelling conventions:
* JavaScript numbers are embedded as `Rat` where real-valued arithmetic
  matters (backoff delays, URL ages) and as `Nat`/`Int` where the code
  only ever holds integers (HTTP statuses, epoch timestamps, byte sizes).
* Buffers are `List Nat` (byte lists).
* Network I/O is an explicit oracle: each attempt's fetch responses are a
  parameter of the embedded function.
* `Math.random()` is an explicit parameter `rand` with `0 ≤ rand < 1`.
-/

namespace SnapExport

/-! ### String helpers

JavaScript's `String.prototype.includes` / `endsWith` / `startsWith` /
`toLowerCase`, embedded as structurally recursive functions over `List Char`
so that concrete evaluations reduce in the kernel. -/

/-- Does `pat` match the leading characters of `l`? -/
def leadMatch : List Char → List Char → Bool
  | [], _ => true
  | _ :: _, [] => false
  | c :: p, d :: l => c == d && leadMatch p l

/-- Does `pat` occur as a contiguous run inside `l`? -/
def occursIn (pat : List Char) : List Char → Bool
  | [] => pat.isEmpty
  | c :: t => leadMatch pat (c :: t) || occursIn pat t

/-- JS `s.includes(pat)`. -/
def strContains (s pat : String) : Bool :=
  occursIn pat.data s.data

/-- JS `s.endsWith(pat)`. -/
def strEnds (s pat : String) : Bool :=
  leadMatch pat.data.reverse s.data.reverse

/-- JS `s.startsWith(pat)`. -/
def strStarts (s pat : String) : Bool :=
  leadMatch pat.data s.data

/-- JS `s.toLowerCase()` (ASCII case folding, which is all the code relies on). -/
def jsToLower (s : String) : String :=
  ⟨s.data.map Char.toLower⟩

/-- JS `s.substring(0, n)`. -/
def strTake (s : String) (n : Nat) : String :=
  ⟨s.data.take n⟩

/-! ### Data model (src/types.ts) -/

/-- `MediaType` from src/types.ts. -/
inductive MediaType where
  | Image
  | Video
deriving DecidableEq

/-- `SnapchatMemory` from src/types.ts.  `date` is the epoch-millisecond
value of the JS `Date`; GPS coordinates are rationals. -/
structure SnapchatMemory where
  date : Int
  mediaType : MediaType
  location : Option (Rat × Rat)
  downloadUrl : String
  mediaDownloadUrl : Option String
  mediaId : String
deriving DecidableEq

/-- Values thrown by the downloader code: `DownloadError` (src/types.ts),
a plain `Error` (e.g. a network failure thrown by `fetch`), or a thrown
value that is not an `Error` instance at all. -/
inductive JsError where
  | downloadError (url : String) (statusCode : Nat) (msg : String)
  | genericError (msg : String)
  | nonError
deriving DecidableEq

/-- The `.message` property of a thrown value: `DownloadError`'s constructor
formats it as shown in src/types.ts; a non-`Error` value has none. -/
def jsErrorMessage : JsError → Option String
  | .downloadError url status msg =>
      some ("Failed to download " ++ url ++ ": " ++ msg ++ " (status: " ++ toString status ++ ")")
  | .genericError msg => some msg
  | .nonError => none

/-! ### Backoff policy (src/downloader.ts) -/

/-- `BACKOFF_BASE_DELAY_MS = 1000`. -/
def BACKOFF_BASE_DELAY_MS : Rat := 1000

/-- `BACKOFF_MAX_DELAY_MS = 30000`. -/
def BACKOFF_MAX_DELAY_MS : Rat := 30000

/-- `calculateBackoffDelay(attempt, baseDelay)` with `Math.random()` made an
explicit argument `rand`: `baseDelay * 2^attempt` plus ±25% jitter, capped at
`BACKOFF_MAX_DELAY_MS`. -/
def calculateBackoffDelay (attempt : Nat) (baseDelay : Rat) (rand : Rat) : Rat :=
  let exponentialDelay := baseDelay * 2 ^ attempt
  let jitter := exponentialDelay * (1 / 4) * (rand * 2 - 1)
  min (exponentialDelay + jitter) BACKOFF_MAX_DELAY_MS

/-- `RETRYABLE_STATUS_CODES` from src/downloader.ts. -/
def RETRYABLE_STATUS_CODES : List Nat := [408, 429, 500, 502, 503, 504]

/-- `isRetryableError(error)`: a `DownloadError` is retryable exactly when its
status code is in `RETRYABLE_STATUS_CODES`; any other `Error` is retryable
when its lowercased message contains one of the network-failure tokens; a
non-`Error` value is not retryable. -/
def isRetryableError : JsError → Bool
  | .downloadError _ status _ => RETRYABLE_STATUS_CODES.contains status
  | .genericError msg =>
      let m := jsToLower msg
      strContains m "network" || strContains m "timeout" || strContains m "econnreset" ||
        strContains m "econnrefused" || strContains m "socket"
  | .nonError => false

/-- Modelled from the spec: "errors whose message indicates a network-layer
failure (timeout, connection reset, connection refused, generic socket
error)", realized by the same message tokens the code tests for. -/
def messageIndicatesNetworkFailure (msg : String) : Bool :=
  let m := jsToLower msg
  strContains m "network" || strContains m "timeout" || strContains m "econnreset" ||
    strContains m "econnrefused" || strContains m "socket"

/-- Modelled from the spec: claim C3 read literally — retryable iff the
error is a download error with status in {408, 429, 500, 502, 503, 504},
OR it is an error (of any kind) whose message indicates a network-layer
failure. -/
def isRetryableClaimC3 (e : JsError) : Prop :=
  (∃ url status msg, e = .downloadError url status msg ∧
      status ∈ ([408, 429, 500, 502, 503, 504] : List Nat)) ∨
  (∃ m, jsErrorMessage e = some m ∧ messageIndicatesNetworkFailure m = true)

/-- Modelled from the spec, amended: the message-based disjunct applies only
to errors that are not `DownloadError`s (a download error is classified by
its HTTP status alone). -/
def isRetryableSpecAmended (e : JsError) : Prop :=
  match e with
  | .downloadError _ status _ => status ∈ ([408, 429, 500, 502, 503, 504] : List Nat)
  | .genericError msg => messageIndicatesNetworkFailure msg = true
  | .nonError => False

/-! ### Bundle extractor (`extractMediaFromZip` in src/downloader.ts)

The ZIP container is embedded as its entry list (what `AdmZip.getEntries()`
yields): a name, a directory flag, and the entry's bytes (`getData()`). -/

/-- One ZIP entry as seen by `extractMediaFromZip`. -/
structure ZipEntry where
  entryName : String
  isDirectory : Bool
  data : List Nat
deriving DecidableEq

/-- Base media kind `'jpg' | 'mp4'`. -/
inductive BaseMediaType where
  | jpg
  | mp4
deriving DecidableEq

/-- `ExtractedMediaContents` from src/downloader.ts. -/
structure ExtractedMediaContents where
  baseMedia : List Nat
  baseMediaType : BaseMediaType
  overlay : Option (List Nat)
deriving DecidableEq

/-- Mutable state of the first heuristic pass of `extractMediaFromZip`:
`baseMedia`, `baseMediaType`, `overlay`. -/
structure ExtractState where
  baseMedia : Option (List Nat)
  baseMediaType : BaseMediaType
  overlay : Option (List Nat)
deriving DecidableEq

/-- One iteration of the first `for` loop of `extractMediaFromZip`; the
`continue`s of the source become an if-else chain, and the loop's local
`name = entry.entryName.toLowerCase()` is inlined. -/
def extractStep (st : ExtractState) (e : ZipEntry) : ExtractState :=
  if e.isDirectory then st
  else if strEnds (jsToLower e.entryName) ".png" &&
      (strContains (jsToLower e.entryName) "overlay" ||
        jsToLower e.entryName == "overlay.png") then
    ⟨st.baseMedia, st.baseMediaType, some e.data⟩
  else if strEnds (jsToLower e.entryName) ".jpg" ||
      strEnds (jsToLower e.entryName) ".jpeg" then
    ⟨some e.data, .jpg, st.overlay⟩
  else if strEnds (jsToLower e.entryName) ".mp4" then
    ⟨some e.data, .mp4, st.overlay⟩
  else if strEnds (jsToLower e.entryName) ".png" && st.overlay.isNone then
    ⟨st.baseMedia, st.baseMediaType, some e.data⟩
  else st

/-- The whole first pass: fold `extractStep` over the entries starting from
`baseMedia = null`, `baseMediaType` defaulted from the memory's media type,
`overlay = null`. -/
def extractPass1 (entries : List ZipEntry) (mediaType : MediaType) : ExtractState :=
  entries.foldl extractStep
    ⟨none, (if mediaType = .Image then .jpg else .mp4), none⟩

/-- The second `for` loop of `extractMediaFromZip`: take the first
non-directory entry that looks like an image (`.jpg`/`.jpeg`/`.png`, kind
jpg) or like a video (`.mp4`/`.mov`, kind mp4), in file order. -/
def findFallbackBase : List ZipEntry → Option (List Nat × BaseMediaType)
  | [] => none
  | e :: rest =>
    if e.isDirectory then findFallbackBase rest
    else if strEnds (jsToLower e.entryName) ".jpg" ||
        strEnds (jsToLower e.entryName) ".jpeg" ||
        strEnds (jsToLower e.entryName) ".png" then
      some (e.data, .jpg)
    else if strEnds (jsToLower e.entryName) ".mp4" ||
        strEnds (jsToLower e.entryName) ".mov" then
      some (e.data, .mp4)
    else findFallbackBase rest

/-- `extractMediaFromZip(zipBuffer, mediaType)`: heuristic pass, then the
fallback pass, then a structural `DownloadError('zip', 0, ...)` if no base
media was found. -/
def extractMediaFromZip (entries : List ZipEntry) (mediaType : MediaType) :
    Except JsError ExtractedMediaContents :=
  match (extractPass1 entries mediaType).baseMedia with
  | some b =>
    .ok ⟨b, (extractPass1 entries mediaType).baseMediaType,
      (extractPass1 entries mediaType).overlay⟩
  | none =>
    match findFallbackBase entries with
    | some (b, t) => .ok ⟨b, t, (extractPass1 entries mediaType).overlay⟩
    | none => .error (.downloadError "zip" 0 "No media file found in ZIP archive")

/-! ### URL expiration check (`checkUrlExpiration` in src/downloader.ts)

The platform's WHATWG `URL` parser is abstracted: a URL value is embedded as
a validity flag (`new URL(url)` succeeds?) together with its decoded search
parameters in order of appearance. -/

/-- Abstraction of a URL string as the code observes it: whether `new URL`
succeeds, and the decoded `searchParams` in order. -/
structure UrlModel where
  valid : Bool
  params : List (String × String)
deriving DecidableEq

/-- `urlObj.searchParams.get(key)`: first value for `key`, or null. -/
def searchParamsGet (params : List (String × String)) (key : String) : Option String :=
  (params.find? (fun p => p.1 = key)).map (fun p => p.2)

/-- Leading decimal digits of `l`, or none when there are no digits. -/
def parseDigits (l : List Char) : Option Nat :=
  let ds := l.takeWhile Char.isDigit
  if ds.isEmpty then none
  else some (ds.foldl (fun n c => n * 10 + (c.toNat - 48)) 0)

/-- JS `parseInt(s, 10)`: skip leading whitespace, optional sign, then
leading decimal digits; `NaN` (here `none`) when no digit is found. -/
def jsParseInt (s : String) : Option Int :=
  match s.data.dropWhile Char.isWhitespace with
  | '-' :: rest => (parseDigits rest).map (fun n => -(n : Int))
  | '+' :: rest => (parseDigits rest).map (fun n => (n : Int))
  | l => (parseDigits l).map (fun n => (n : Int))

/-- JS `Math.round`: round half toward positive infinity. -/
def jsRound (x : Rat) : Int := ⌊x + 1 / 2⌋

/-- `UrlExpirationInfo` from src/downloader.ts (`timestamp` is the epoch
value of the `Date`, or null). -/
structure UrlExpirationInfo where
  isExpired : Bool
  ageHours : Rat
  timestamp : Option Int
deriving DecidableEq

/-- `URL_EXPIRATION_HOURS = 6`. -/
def URL_EXPIRATION_HOURS : Rat := 6

/-- `checkUrlExpiration(url, thresholdHours)` with the wall clock
(`Date.now()`) made an explicit argument `now` (epoch milliseconds).
An invalid URL, a missing/empty `ts` parameter, or a `ts` that does not
parse to a number all fail open. -/
def checkUrlExpiration (url : UrlModel) (thresholdHours : Rat) (now : Int) :
    UrlExpirationInfo :=
  if !url.valid then ⟨false, 0, none⟩
  else
    match searchParamsGet url.params "ts" with
    | none => ⟨false, 0, none⟩
    | some tsParam =>
      if tsParam = "" then ⟨false, 0, none⟩
      else
        match jsParseInt tsParam with
        | none => ⟨false, 0, none⟩
        | some timestamp =>
          let ageMs : Rat := ((now : Rat) - (timestamp : Rat))
          let ageHours := ageMs / (1000 * 60 * 60)
          ⟨decide (ageHours > thresholdHours), (jsRound (ageHours * 10) : Rat) / 10,
            some timestamp⟩

/-! ### Fetcher (`downloadMemory` in src/downloader.ts)

The two network calls of one attempt (the form-encoded exchange POST and
the payload GET) are an oracle `AttemptEnv`; `env : Nat → AttemptEnv` gives
the oracle for each attempt number. -/

/-- `DownloadedMedia` from src/downloader.ts. -/
structure DownloadedMedia where
  data : List Nat
  contentType : String
  extension : String
deriving DecidableEq

/-- `getExtensionFromContentType(contentType, mediaType)` from
src/downloader.ts. -/
def getExtensionFromContentType (contentType : String) (mediaType : MediaType) : String :=
  let type := jsToLower contentType
  if strContains type "jpeg" || strContains type "jpg" then "jpg"
  else if strContains type "png" then "png"
  else if strContains type "gif" then "gif"
  else if strContains type "webp" then "webp"
  else if strContains type "heic" then "heic"
  else if strContains type "mp4" then "mp4"
  else if strContains type "quicktime" || strContains type "mov" then "mov"
  else if strContains type "webm" then "webm"
  else if mediaType = .Image then "jpg" else "mp4"

/-- Outcome of the exchange POST of one attempt: either `fetch` threw, or a
response with status, statusText and text body arrived. -/
inductive ProxyOutcome where
  | thrown (e : JsError)
  | resp (status : Nat) (statusText : String) (body : String)
deriving DecidableEq

/-- Outcome of the payload GET of one attempt: either `fetch` threw, or a
response with status, statusText, content-type header and byte body
arrived. -/
inductive FileOutcome where
  | thrown (e : JsError)
  | resp (status : Nat) (statusText : String) (contentType : Option String)
      (body : List Nat)
deriving DecidableEq

/-- The network oracle for one attempt of `downloadMemory`. -/
structure AttemptEnv where
  proxy : ProxyOutcome
  file : FileOutcome
deriving DecidableEq

/-- JS `url.split('?')` destructured as `[baseUrl, queryString]`, together
with the falsy check `if (!queryString)`: none when there is no `'?'` or the
query string is empty. -/
def splitUrl (url : String) : Option (String × String) :=
  match url.data.splitOnP (fun c => c == '?') with
  | b :: q :: _ => if q.isEmpty then none else some (⟨b⟩, ⟨q⟩)
  | _ => none

/-- The body of one iteration of `downloadMemory`'s retry loop, as the
attempt's outcome: exchange POST, signed-URL validation, payload GET,
empty-body check, then the downloaded media.  Every `throw` becomes
`Except.error`; the surrounding retry decision lives in `downloadLoop`. -/
def runAttempt (memory : SnapchatMemory) (ae : AttemptEnv) :
    Except JsError DownloadedMedia :=
  let url := memory.downloadUrl
  match ae.proxy with
  | .thrown e => .error e
  | .resp status statusText body =>
    if 200 ≤ status ∧ status < 300 then
      let signedUrl := body
      if signedUrl = "" ∨ strStarts signedUrl "http" = false then
        .error (.downloadError url 0 ("Invalid signed URL response: " ++ strTake signedUrl 100))
      else
        match ae.file with
        | .thrown e => .error e
        | .resp status2 statusText2 contentTypeHeader bytes =>
          if 200 ≤ status2 ∧ status2 < 300 then
            let contentType := contentTypeHeader.getD "application/octet-stream"
            if bytes.length = 0 then
              .error (.downloadError signedUrl status2 "Empty response body")
            else
              .ok ⟨bytes, contentType, getExtensionFromContentType contentType memory.mediaType⟩
          else .error (.downloadError signedUrl status2 statusText2)
    else .error (.downloadError url status statusText)

deriving instance DecidableEq for Except

/-- Trace of one `downloadMemory` call: the final outcome, the number of
attempts that issued the exchange request, and the `onRetry` invocations
`(attemptNumber, delay, error)` in order. -/
structure DownloadRun where
  result : Except JsError DownloadedMedia
  attempts : Nat
  retryCalls : List (Nat × Rat × JsError)
deriving DecidableEq

/-- The retry loop of `downloadMemory` for attempts `attempt`, `attempt+1`,
…, with `left` further attempts allowed (`left = maxRetries - attempt`).
A failed attempt retries exactly when attempts remain and the error is
retryable, sleeping `calculateBackoffDelay(attempt)` and invoking the retry
callback with `(attempt + 1, delay, error)`; otherwise the error is the
final outcome. -/
def downloadLoop (outcome : Nat → Except JsError DownloadedMedia) (rand : Nat → Rat) :
    Nat → Nat → DownloadRun
  | attempt, left =>
    match outcome attempt with
    | .ok m => ⟨.ok m, 1, []⟩
    | .error e =>
      match left with
      | 0 => ⟨.error e, 1, []⟩
      | left' + 1 =>
        if isRetryableError e then
          let delay := calculateBackoffDelay attempt BACKOFF_BASE_DELAY_MS (rand attempt)
          let rest := downloadLoop outcome rand (attempt + 1) left'
          ⟨rest.result, rest.attempts + 1, (attempt + 1, delay, e) :: rest.retryCalls⟩
        else ⟨.error e, 1, []⟩

/-- `downloadMemory(memory, { maxRetries, onRetry })` with network and
randomness as explicit oracles: split the download URL (a URL without a
query payload fails before any attempt), then run the retry loop from
attempt 0 with `maxRetries` retries allowed. -/
def downloadMemory (memory : SnapchatMemory) (env : Nat → AttemptEnv)
    (rand : Nat → Rat) (maxRetries : Nat) : DownloadRun :=
  match splitUrl memory.downloadUrl with
  | none =>
    ⟨.error (.downloadError memory.downloadUrl 0
        "Invalid download URL format - missing query parameters"), 0, []⟩
  | some _ => downloadLoop (fun a => runAttempt memory (env a)) rand 0 maxRetries

/-! ### Manifest store (src/manifest.ts)

A JS `Record<string, ManifestEntry>` is embedded as an association list in
insertion order; assigning to an existing key replaces its value in place,
assigning a fresh key appends.  ISO timestamp strings are abstracted as the
epoch values they render. -/

/-- `ManifestEntry` from src/types.ts. -/
structure ManifestEntry where
  mediaId : String
  downloadedAt : Int
  filePath : String
  fileSize : Nat
  mediaType : MediaType
  originalDate : Int
deriving DecidableEq

/-- `ExportManifest` from src/types.ts. -/
structure ExportManifest where
  version : Int
  createdAt : Int
  updatedAt : Int
  outputDir : String
  entries : List (String × ManifestEntry)
deriving DecidableEq

/-- `MANIFEST_VERSION = 1`. -/
def MANIFEST_VERSION : Int := 1

/-- `createManifest(outputDir)` with `new Date()` as explicit `now`. -/
def createManifest (outputDir : String) (now : Int) : ExportManifest :=
  ⟨MANIFEST_VERSION, now, now, outputDir, []⟩

/-- JS object assignment `entries[k] = v`: replace in place when the key is
present, append otherwise. -/
def recordSet : List (String × ManifestEntry) → String → ManifestEntry →
    List (String × ManifestEntry)
  | [], k, v => [(k, v)]
  | (k', v') :: rest, k, v =>
    if k' = k then (k, v) :: rest else (k', v') :: recordSet rest k v

/-- What `loadManifest` observes of the disk: `readFile` + `JSON.parse`
either yields a parsed manifest, fails with `ENOENT`, fails with another
I/O error, or fails to parse. -/
inductive ReadOutcome where
  | parsed (data : ExportManifest)
  | enoent
  | ioError (msg : String)
  | parseFailed (msg : String)

/-- `loadManifest(outputDir)`: a missing file yields a fresh manifest; a
parsed manifest with a mismatching version yields a fresh manifest plus a
console warning (returned here as a warning list); any other failure
propagates. -/
def loadManifest (outputDir : String) (now : Int) (disk : ReadOutcome) :
    Except String (ExportManifest × List String) :=
  match disk with
  | .parsed data =>
    if data.version ≠ MANIFEST_VERSION then
      .ok (createManifest outputDir now,
        ["Manifest version mismatch: expected " ++ toString MANIFEST_VERSION ++
          ", got " ++ toString data.version ++ ". Creating new manifest."])
    else .ok (data, [])
  | .enoent => .ok (createManifest outputDir now, [])
  | .ioError msg => .error msg
  | .parseFailed msg => .error msg

/-- `addManifestEntry(manifest, memory, filePath, fileSize)` with `new
Date()` as explicit `now`; returns the updated manifest (the mutation made
explicit) and the created entry. -/
def addManifestEntry (manifest : ExportManifest) (memory : SnapchatMemory)
    (filePath : String) (fileSize : Nat) (now : Int) :
    ExportManifest × ManifestEntry :=
  let entry : ManifestEntry :=
    ⟨memory.mediaId, now, filePath, fileSize, memory.mediaType, memory.date⟩
  (⟨manifest.version, manifest.createdAt, manifest.updatedAt, manifest.outputDir,
      recordSet manifest.entries memory.mediaId entry⟩, entry)

/-- `getDownloadedIds(manifest)`: the key set of `entries` (as a list). -/
def getDownloadedIds (manifest : ExportManifest) : List String :=
  manifest.entries.map (fun p => p.1)

/-- `filterPendingMemories(memories, manifest)`: the memories whose id is
not among the downloaded ids, in input order. -/
def filterPendingMemories (memories : List SnapchatMemory)
    (manifest : ExportManifest) : List SnapchatMemory :=
  memories.filter (fun m => !((getDownloadedIds manifest).contains m.mediaId))

/-! ### Concurrent batch download (src/downloader.ts)

`downloadMemoriesConcurrent` drains a shared queue with a pool of workers
and finally re-reads the results map in the original input order.  The
drain phase is embedded as a sequential pass (one worker consuming the
whole queue); the final theorem only depends on the results map binding
each key to a result for a memory with that id, which any interleaving of
workers preserves. -/

/-- `BatchDownloadResult` from src/downloader.ts. -/
structure BatchDownloadResult where
  memory : SnapchatMemory
  success : Bool
  media : Option DownloadedMedia
  error : Option String
  retries : Option Nat
deriving DecidableEq

/-- JS `Map.prototype.get`. -/
def lookupKey : List (String × BatchDownloadResult) → String → Option BatchDownloadResult
  | [], _ => none
  | (k, v) :: rest, key => if k = key then some v else lookupKey rest key

/-- JS `Map.prototype.set`: update in place when present, append otherwise. -/
def mapSet : List (String × BatchDownloadResult) → String → BatchDownloadResult →
    List (String × BatchDownloadResult)
  | [], k, v => [(k, v)]
  | (k', v') :: rest, k, v =>
    if k' = k then (k, v) :: rest else (k', v') :: mapSet rest k v

/-- The result a worker stores for one memory, from the `DownloadRun` of
its `downloadMemory` call: `retryCount` is the last attempt number passed
to `onRetry` (the number of retries), the error message is the thrown
error's `.message` (or `'Unknown error'` for a non-`Error`). -/
def workerResultFor (memory : SnapchatMemory) (run : DownloadRun) : BatchDownloadResult :=
  match run.result with
  | .ok media => ⟨memory, true, some media, none, some run.retryCalls.length⟩
  | .error e =>
    ⟨memory, false, none, some ((jsErrorMessage e).getD "Unknown error"),
      some run.retryCalls.length⟩

/-- `downloadWorker(queue, results, options)`: pop memories until the queue
is empty or the abort signal (an oracle indexed by iteration) is raised;
store each memory's result under its `mediaId`. -/
def downloadWorker (envOf : SnapchatMemory → Nat → AttemptEnv)
    (randOf : SnapchatMemory → Nat → Rat) (maxRetries : Nat) (aborted : Nat → Bool) :
    List SnapchatMemory → List (String × BatchDownloadResult) → Nat →
      List (String × BatchDownloadResult)
  | [], results, _ => results
  | m :: rest, results, iteration =>
    if aborted iteration then results
    else
      let br := workerResultFor m (downloadMemory m (envOf m) (randOf m) maxRetries)
      downloadWorker envOf randOf maxRetries aborted rest
        (mapSet results m.mediaId br) (iteration + 1)

/-- The cancelled-fallback result built in `downloadMemoriesConcurrent`'s
final mapping for a memory absent from the results map. -/
def cancelledResult (memory : SnapchatMemory) : BatchDownloadResult :=
  ⟨memory, false, none, some "Download was cancelled", none⟩

/-- Invariant of the shared results map: every binding stores a result for
a memory whose id is the binding's key.  Workers only ever add bindings of
this shape, in any interleaving. -/
def keyConsistent (results : List (String × BatchDownloadResult)) : Prop :=
  ∀ p ∈ results, p.2.memory.mediaId = p.1

/-- `downloadMemoriesConcurrent(memories, options)`: drain the queue, then
return one result per input memory in the original input order by looking
each memory's id up in the results map, defaulting to the cancelled
failure. -/
def downloadMemoriesConcurrent (memories : List SnapchatMemory)
    (envOf : SnapchatMemory → Nat → AttemptEnv) (randOf : SnapchatMemory → Nat → Rat)
    (maxRetries : Nat) (aborted : Nat → Bool) : List BatchDownloadResult :=
  let results := downloadWorker envOf randOf maxRetries aborted memories [] 0
  memories.map (fun m =>
    match lookupKey results m.mediaId with
    | some r => r
    | none => cancelledResult m)

/-! ## Theorems -/

/-- C2 counterexample: at `attempt = 7`, `baseDelay = 1000` and
`Math.random() = 1/2` (zero jitter) the returned delay is the 30000 ms
ceiling, which is strictly below the claimed lower bound
`0.75 · base · 2^attempt = 96000`; so the delay does not lie in the claimed
interval. -/
theorem calculateBackoffDelay_interval_counterexample :
    calculateBackoffDelay 7 1000 (1 / 2) = 30000 ∧
      (30000 : Rat) < 3 / 4 * (1000 * 2 ^ 7) := by
  constructor
  · norm_num [calculateBackoffDelay, BACKOFF_MAX_DELAY_MS]
  · norm_num

/-- C2 (amended): for every `attempt ≥ 0`, `baseDelay > 0` and jitter sample
`rand ∈ [0, 1)`, the delay lies within the ±25% jitter band around
`baseDelay · 2^attempt` clamped to the 30000 ms ceiling, i.e. within
`[min(0.75 · baseDelay · 2^attempt, 30000), min(1.25 · baseDelay · 2^attempt, 30000)]`
(so in particular it never exceeds 30000 ms). -/
theorem calculateBackoffDelay_bounds (attempt : Nat) (baseDelay rand : Rat)
    (hb : 0 < baseDelay) (h0 : 0 ≤ rand) (h1 : rand < 1) :
    min (3 / 4 * (baseDelay * 2 ^ attempt)) 30000 ≤
        calculateBackoffDelay attempt baseDelay rand ∧
      calculateBackoffDelay attempt baseDelay rand ≤
        min (5 / 4 * (baseDelay * 2 ^ attempt)) 30000 := by
  have he : (0 : Rat) < baseDelay * 2 ^ attempt := by positivity
  unfold calculateBackoffDelay BACKOFF_MAX_DELAY_MS
  constructor
  · refine min_le_min ?_ le_rfl
    nlinarith [mul_nonneg he.le h0]
  · refine min_le_min ?_ le_rfl
    nlinarith [mul_nonneg he.le h0]

/-- Witness for the amended C2 bounds at `attempt = 0`, `baseDelay = 1000`,
`rand = 1/2`. -/
theorem calculateBackoffDelay_bounds_witness :
    min (3 / 4 * ((1000 : Rat) * 2 ^ 0)) 30000 ≤ calculateBackoffDelay 0 1000 (1 / 2) ∧
      calculateBackoffDelay 0 1000 (1 / 2) ≤ min (5 / 4 * ((1000 : Rat) * 2 ^ 0)) 30000 :=
  calculateBackoffDelay_bounds 0 1000 (1 / 2) (by norm_num) (by norm_num) (by norm_num)

/-- C3 counterexample: the claim read literally classifies every error with
a network-flavoured message as retryable, but `isRetryableError` classifies
a `DownloadError` by its status code alone: `DownloadError("u", 0,
"timeout")` has the message `"Failed to download u: timeout (status: 0)"`
(which contains `"timeout"`) yet is not retryable. -/
theorem isRetryableError_claim_counterexample :
    ¬ (∀ e : JsError, isRetryableError e = true ↔ isRetryableClaimC3 e) := by
  intro h
  have hmem : isRetryableClaimC3 (.downloadError "u" 0 "timeout") :=
    Or.inr ⟨"Failed to download u: timeout (status: 0)", rfl, rfl⟩
  have hfalse : isRetryableError (.downloadError "u" 0 "timeout") = false := rfl
  have := (h (.downloadError "u" 0 "timeout")).mpr hmem
  rw [hfalse] at this
  exact Bool.false_ne_true this

/-- C3 (amended): `isRetryableError` returns true exactly when the error is
a download error whose HTTP status is one of {408, 429, 500, 502, 503,
504}, or a non-download error whose message indicates a network-layer
failure; every other input — including download errors whose status is
outside the set regardless of their message, and thrown non-`Error`
values — yields false. -/
theorem isRetryableError_eq_spec (e : JsError) :
    isRetryableError e = true ↔ isRetryableSpecAmended e := by
  cases e with
  | downloadError url status msg =>
    simp only [isRetryableError, isRetryableSpecAmended, RETRYABLE_STATUS_CODES]
    constructor
    · intro h
      have := List.mem_of_elem_eq_true h
      simpa using this
    · intro h
      exact List.elem_eq_true_of_mem (by simpa using h)
  | genericError msg =>
    simp only [isRetryableError, isRetryableSpecAmended, messageIndicatesNetworkFailure]
  | nonError =>
    simp [isRetryableError, isRetryableSpecAmended]

/-- C4: `checkUrlExpiration` fails open — an unparsable URL, a missing `ts`
parameter, or a `ts` that does not parse to a number all yield
`isExpired = false`, `ageHours = 0`, `timestamp = null` (and the function is
total, so it never throws); when `ts` parses as a millisecond epoch,
`isExpired` holds iff the exact age exceeds the threshold in hours, with
`ageHours` reported rounded to one decimal; concretely a `ts` 7 hours old
against a 6-hour threshold yields `isExpired = true`, `ageHours = 7.0`. -/
theorem checkUrlExpiration_spec (u : UrlModel) (thr : Rat) (now : Int) (ts : String)
    (n : Int) :
    (u.valid = false → checkUrlExpiration u thr now = ⟨false, 0, none⟩) ∧
    (searchParamsGet u.params "ts" = none →
      checkUrlExpiration u thr now = ⟨false, 0, none⟩) ∧
    (searchParamsGet u.params "ts" = some ts → jsParseInt ts = none →
      checkUrlExpiration u thr now = ⟨false, 0, none⟩) ∧
    (u.valid = true → searchParamsGet u.params "ts" = some ts → ts ≠ "" →
      jsParseInt ts = some n →
      checkUrlExpiration u thr now =
        ⟨decide (((now : Rat) - (n : Rat)) / (1000 * 60 * 60) > thr),
          (jsRound (((now : Rat) - (n : Rat)) / (1000 * 60 * 60) * 10) : Rat) / 10,
          some n⟩) ∧
    checkUrlExpiration ⟨true, [("ts", "1699974800000")]⟩ 6 1700000000000 =
      ⟨true, 7, some 1699974800000⟩ := by
  have key : ∀ (u' : UrlModel) (thr' : Rat) (now' : Int) (ts' : String) (n' : Int),
      u'.valid = true → searchParamsGet u'.params "ts" = some ts' → ts' ≠ "" →
      jsParseInt ts' = some n' →
      checkUrlExpiration u' thr' now' =
        ⟨decide (((now' : Rat) - (n' : Rat)) / (1000 * 60 * 60) > thr'),
          (jsRound (((now' : Rat) - (n' : Rat)) / (1000 * 60 * 60) * 10) : Rat) / 10,
          some n'⟩ := by
    intro u' thr' now' ts' n' hv hget hts hparse
    simp [checkUrlExpiration, hv, hget, hts, hparse]
  refine ⟨?_, ?_, ?_, key u thr now ts n, ?_⟩
  · intro h
    simp [checkUrlExpiration, h]
  · intro h
    by_cases hv : u.valid
    · simp [checkUrlExpiration, hv, h]
    · simp [checkUrlExpiration, hv]
  · intro hget hparse
    by_cases hv : u.valid
    · by_cases hts : ts = ""
      · simp [checkUrlExpiration, hv, hget, hts]
      · simp [checkUrlExpiration, hv, hget, hts, hparse]
    · simp [checkUrlExpiration, hv]
  · rw [key ⟨true, [("ts", "1699974800000")]⟩ 6 1700000000000 "1699974800000"
      1699974800000 rfl rfl (by decide) (by decide)]
    have hage : (((1700000000000 : Int) : Rat) - ((1699974800000 : Int) : Rat)) /
        (1000 * 60 * 60) = 7 := by norm_num
    rw [hage]
    have h70 : jsRound ((7 : Rat) * 10) = 70 := by
      rw [jsRound, Int.floor_eq_iff]
      constructor <;> norm_num
    rw [h70]
    norm_num

/-- Witness for C4 at a URL with no `ts` parameter and at the parsed case
of the 7-hours-old example. -/
theorem checkUrlExpiration_spec_witness :
    checkUrlExpiration ⟨true, [("sig", "x")]⟩ 6 1700000000000 = ⟨false, 0, none⟩ ∧
      checkUrlExpiration ⟨true, [("ts", "1699974800000")]⟩ 6 1700000000000 =
        ⟨decide ((((1700000000000 : Int) : Rat) - ((1699974800000 : Int) : Rat)) /
            (1000 * 60 * 60) > 6),
          (jsRound ((((1700000000000 : Int) : Rat) - ((1699974800000 : Int) : Rat)) /
              (1000 * 60 * 60) * 10) : Rat) / 10, some 1699974800000⟩ :=
  ⟨(checkUrlExpiration_spec ⟨true, [("sig", "x")]⟩ 6 1700000000000 "" 0).2.1 rfl,
    (checkUrlExpiration_spec ⟨true, [("ts", "1699974800000")]⟩ 6 1700000000000
        "1699974800000" 1699974800000).2.2.2.1 rfl rfl (by decide) (by decide)⟩

/-- C5: bundle extraction is a (deterministic) function of the container's
entry list and bytes; a container with entries `["overlay.png", "main.jpg"]`
extracts a still-image base asset with a non-null overlay, and a container
with only `["clip.mp4"]` extracts a clip base asset with a null overlay —
whatever the memory's media type and the entries' bytes. -/
theorem extractMediaFromZip_examples (mt : MediaType) (d1 d2 d3 : List Nat) :
    extractMediaFromZip [⟨"overlay.png", false, d1⟩, ⟨"main.jpg", false, d2⟩] mt =
        .ok ⟨d2, .jpg, some d1⟩ ∧
      extractMediaFromZip [⟨"clip.mp4", false, d3⟩] mt = .ok ⟨d3, .mp4, none⟩ := by
  cases mt <;> exact ⟨rfl, rfl⟩

/-- C6: when neither the heuristic pass nor the fallback pass locates a base
asset, extraction fails with the structural `DownloadError('zip', 0, 'No
media file found in ZIP archive')` and produces no contents at all (the
error carries no partial result). -/
theorem extractMediaFromZip_no_base_error (entries : List ZipEntry) (mt : MediaType)
    (h1 : (extractPass1 entries mt).baseMedia = none)
    (h2 : findFallbackBase entries = none) :
    extractMediaFromZip entries mt =
      .error (.downloadError "zip" 0 "No media file found in ZIP archive") := by
  simp [extractMediaFromZip, h1, h2]

/-- Witness for C6 at the empty container. -/
theorem extractMediaFromZip_no_base_error_witness :
    extractMediaFromZip ([] : List ZipEntry) .Image =
      .error (.downloadError "zip" 0 "No media file found in ZIP archive") :=
  extractMediaFromZip_no_base_error [] .Image rfl rfl

/-- One heuristic step either leaves the base asset unchanged or sets it to
the data of the (non-directory) entry at hand. -/
theorem extractStep_base (st : ExtractState) (e : ZipEntry) :
    (extractStep st e).baseMedia = st.baseMedia ∨
      (e.isDirectory = false ∧ (extractStep st e).baseMedia = some e.data) := by
  unfold extractStep
  split_ifs with h1 h2 h3 h4 h5
  · exact Or.inl rfl
  · exact Or.inl rfl
  · exact Or.inr ⟨by simpa using h1, rfl⟩
  · exact Or.inr ⟨by simpa using h1, rfl⟩
  · exact Or.inl rfl
  · exact Or.inl rfl

/-- If the heuristic pass ends with a base asset, that asset is the data of
some non-directory entry (unless it was already present in the starting
state). -/
theorem foldl_extractStep_base (l : List ZipEntry) :
    ∀ (st : ExtractState) (b : List Nat),
      (l.foldl extractStep st).baseMedia = some b →
      st.baseMedia = some b ∨ ∃ e ∈ l, e.isDirectory = false ∧ e.data = b := by
  induction l with
  | nil => exact fun st b h => Or.inl h
  | cons e rest ih =>
    intro st b h
    rcases ih (extractStep st e) b h with h' | ⟨e', he', hd, hb⟩
    · rcases extractStep_base st e with heq | ⟨hdir, heq⟩
      · exact Or.inl (heq ▸ h')
      · rw [heq] at h'
        exact Or.inr ⟨e, List.mem_cons_self e rest, hdir, Option.some_injective _ h'⟩
    · exact Or.inr ⟨e', List.mem_cons_of_mem e he', hd, hb⟩

/-- The fallback pass only ever returns the data of a non-directory
entry. -/
theorem findFallbackBase_mem (l : List ZipEntry) :
    ∀ (b : List Nat) (t : BaseMediaType),
      findFallbackBase l = some (b, t) →
      ∃ e ∈ l, e.isDirectory = false ∧ e.data = b := by
  induction l with
  | nil => intro b t h; exact absurd h (by simp [findFallbackBase])
  | cons e rest ih =>
    intro b t h
    unfold findFallbackBase at h
    split_ifs at h with h1 h2 h3
    · rcases ih b t h with ⟨e', he', hd, hb⟩
      exact ⟨e', List.mem_cons_of_mem e he', hd, hb⟩
    · cases h
      exact ⟨e, List.mem_cons_self e rest, by simpa using h1, rfl⟩
    · cases h
      exact ⟨e, List.mem_cons_self e rest, by simpa using h1, rfl⟩
    · rcases ih b t h with ⟨e', he', hd, hb⟩
      exact ⟨e', List.mem_cons_of_mem e he', hd, hb⟩

/-- C7 counterexample: a container whose only entry is a zero-byte
`main.jpg` extracts successfully with an empty base-asset buffer — the code
only guards against a *missing* base asset (`if (!baseMedia)`), not an
empty one, so the claimed invariant fails. -/
theorem extractMediaFromZip_nonempty_claim_counterexample :
    ¬ (∀ (entries : List ZipEntry) (mt : MediaType) (r : ExtractedMediaContents),
        extractMediaFromZip entries mt = .ok r → r.baseMedia.length ≠ 0) := by
  intro h
  exact h [⟨"main.jpg", false, []⟩] .Image ⟨[], .jpg, none⟩ rfl rfl

/-- C7 (amended): whenever bundle extraction succeeds, the base-asset
buffer is present and is the byte content of one of the container's
non-directory entries (it is empty only when that entry's data is empty —
non-emptiness itself is not guaranteed); and the absence of an overlay is a
valid, non-error result: a container with a lone `photo.jpeg` entry
succeeds with a null overlay. -/
theorem extractMediaFromZip_success_base (entries : List ZipEntry) (mt : MediaType)
    (r : ExtractedMediaContents) (d : List Nat)
    (h : extractMediaFromZip entries mt = .ok r) :
    (∃ e ∈ entries, e.isDirectory = false ∧ r.baseMedia = e.data) ∧
      extractMediaFromZip [⟨"photo.jpeg", false, d⟩] mt = .ok ⟨d, .jpg, none⟩ := by
  constructor
  · unfold extractMediaFromZip at h
    split at h
    · rename_i b hb
      injection h with h'
      subst h'
      unfold extractPass1 at hb
      rcases foldl_extractStep_base entries _ b hb with h' | ⟨e, he, hd, hdata⟩
      · exact absurd h' (by simp)
      · exact ⟨e, he, hd, hdata.symm⟩
    · split at h
      · rename_i b t hp
        injection h with h'
        subst h'
        rcases findFallbackBase_mem entries b t hp with ⟨e, he, hd, hdata⟩
        exact ⟨e, he, hd, hdata.symm⟩
      · exact absurd h (by simp)
  · cases mt <;> rfl

/-- Witness for the amended C7 at a one-entry container. -/
theorem extractMediaFromZip_success_base_witness :
    (∃ e ∈ [(⟨"main.jpg", false, [5]⟩ : ZipEntry)], e.isDirectory = false ∧
        ([5] : List Nat) = e.data) ∧
      extractMediaFromZip [⟨"photo.jpeg", false, [7]⟩] .Image = .ok ⟨[7], .jpg, none⟩ :=
  extractMediaFromZip_success_base [⟨"main.jpg", false, [5]⟩] .Image ⟨[5], .jpg, none⟩
    [7] rfl

/-- Retry-loop lemma: when every attempt fails with a retryable error, the
loop with `left` remaining retries performs `left + 1` attempts, records
`left` retry-callback invocations, and ends with the error of the last
attempt. -/
theorem downloadLoop_all_retryable (outcome : Nat → Except JsError DownloadedMedia)
    (rand : Nat → Rat) (f : Nat → JsError)
    (hout : ∀ a, outcome a = .error (f a))
    (hretry : ∀ a, isRetryableError (f a) = true) :
    ∀ (left attempt : Nat),
      (downloadLoop outcome rand attempt left).result = .error (f (attempt + left)) ∧
        (downloadLoop outcome rand attempt left).attempts = left + 1 ∧
        (downloadLoop outcome rand attempt left).retryCalls.length = left := by
  intro left
  induction left with
  | zero =>
    intro attempt
    unfold downloadLoop
    rw [hout attempt]
    exact ⟨rfl, rfl, rfl⟩
  | succ left' ih =>
    intro attempt
    unfold downloadLoop
    rw [hout attempt]
    simp only [hretry attempt, if_true]
    have harith : attempt + 1 + left' = attempt + (left' + 1) := by omega
    rcases ih (attempt + 1) with ⟨hres, hatt, hlen⟩
    refine ⟨?_, ?_, ?_⟩
    · simpa [harith] using hres
    · simpa using hatt
    · simpa using hlen

/-- C1: for every `maxRetries = N`, if the download URL has a query payload
and every attempt fails with a retryable error (e.g. the exchange endpoint
always answers 503), then `downloadMemory` makes exactly `N + 1` attempts,
invokes the retry callback exactly `N` times, and its final outcome is a
failure carrying the last attempt's retryable error — never a success. -/
theorem downloadMemory_retry_exhaustion (memory : SnapchatMemory)
    (env : Nat → AttemptEnv) (rand : Nat → Rat) (N : Nat) (bq : String × String)
    (hsplit : splitUrl memory.downloadUrl = some bq)
    (hfail : ∀ a : Nat, ∃ e, runAttempt memory (env a) = .error e ∧
      isRetryableError e = true) :
    (downloadMemory memory env rand N).attempts = N + 1 ∧
      (downloadMemory memory env rand N).retryCalls.length = N ∧
      ∃ e, (downloadMemory memory env rand N).result = .error e ∧
        runAttempt memory (env N) = .error e ∧ isRetryableError e = true := by
  choose f hf using hfail
  have h := downloadLoop_all_retryable (fun a => runAttempt memory (env a)) rand f
    (fun a => (hf a).1) (fun a => (hf a).2) N 0
  rcases h with ⟨hres, hatt, hlen⟩
  unfold downloadMemory
  rw [hsplit]
  refine ⟨hatt, hlen, f N, ?_, (hf N).1, (hf N).2⟩
  simpa using hres

/-- Witness for C1: an exchange endpoint that always answers 503 with
`maxRetries = 3` makes 4 attempts, 3 retry callbacks, and fails with the
503 download error. -/
theorem downloadMemory_retry_exhaustion_witness :
    (downloadMemory ⟨0, .Image, none, "http://a?b=c", none, "id1"⟩
        (fun _ => ⟨.resp 503 "Service Unavailable" "",
          .resp 200 "OK" (some "image/jpeg") [1]⟩)
        (fun _ => 1 / 2) 3).attempts = 4 ∧
      (downloadMemory ⟨0, .Image, none, "http://a?b=c", none, "id1"⟩
        (fun _ => ⟨.resp 503 "Service Unavailable" "",
          .resp 200 "OK" (some "image/jpeg") [1]⟩)
        (fun _ => 1 / 2) 3).retryCalls.length = 3 := by
  have h := downloadMemory_retry_exhaustion ⟨0, .Image, none, "http://a?b=c", none, "id1"⟩
    (fun _ => ⟨.resp 503 "Service Unavailable" "", .resp 200 "OK" (some "image/jpeg") [1]⟩)
    (fun _ => 1 / 2) 3 ("http://a", "b=c") rfl
    (fun _ => ⟨.downloadError "http://a?b=c" 503 "Service Unavailable", rfl, rfl⟩)
  exact ⟨h.1, h.2.1⟩

/-- Membership in the key list of an association list. -/
theorem contains_map_fst (l : List (String × ManifestEntry)) (k : String) :
    ((l.map (fun p => p.1)).contains k = true) ↔ ∃ p ∈ l, p.1 = k := by
  simp [List.mem_map]

/-- Key membership after a JS object assignment: the keys of
`recordSet l kX v` are the keys of `l` plus `kX`. -/
theorem mem_keys_recordSet (l : List (String × ManifestEntry)) (kX k : String)
    (v : ManifestEntry) :
    k ∈ (recordSet l kX v).map (fun p => p.1) ↔
      (k ∈ l.map (fun p => p.1) ∨ k = kX) := by
  induction l with
  | nil => simp [recordSet]
  | cons p rest ih =>
    obtain ⟨k', v'⟩ := p
    by_cases h : k' = kX
    · subst h
      simp [recordSet]
      tauto
    · simp [recordSet, h, ih]
      tauto

/-- Bool version of `mem_keys_recordSet`, for rewriting filter
predicates. -/
theorem contains_keys_recordSet (l : List (String × ManifestEntry)) (kX k : String)
    (v : ManifestEntry) :
    ((recordSet l kX v).map (fun p => p.1)).contains k =
      (((l.map (fun p => p.1)).contains k) || (k == kX)) := by
  apply Bool.eq_iff_iff.mpr
  simp [mem_keys_recordSet l kX k v]

/-- C8: `filterPendingMemories` returns exactly the input memories whose id
is not a key of the manifest's entries, as an order-preserving sublist of
the input; it is idempotent against an unchanged manifest; and running it
after `addManifestEntry` for memory `X` removes exactly the memories with
`X`'s id from the pending result. -/
theorem filterPendingMemories_spec (ms : List SnapchatMemory) (mf : ExportManifest)
    (X : SnapchatMemory) (fp : String) (fs : Nat) (now : Int) :
    (filterPendingMemories ms mf).Sublist ms ∧
      (∀ m, m ∈ filterPendingMemories ms mf ↔
        (m ∈ ms ∧ ¬ ∃ p ∈ mf.entries, p.1 = m.mediaId)) ∧
      filterPendingMemories (filterPendingMemories ms mf) mf =
        filterPendingMemories ms mf ∧
      filterPendingMemories ms (addManifestEntry mf X fp fs now).1 =
        (filterPendingMemories ms mf).filter (fun m => !(m.mediaId == X.mediaId)) := by
  refine ⟨List.filter_sublist _, ?_, ?_, ?_⟩
  · intro m
    rw [filterPendingMemories, List.mem_filter]
    refine and_congr_right fun _ => ?_
    rw [Bool.not_eq_true']
    simp only [getDownloadedIds]
    constructor
    · intro hb hex
      rw [(contains_map_fst mf.entries m.mediaId).mpr hex] at hb
      exact Bool.noConfusion hb
    · intro hne
      cases hc : (mf.entries.map (fun p => p.1)).contains m.mediaId with
      | false => rfl
      | true => exact absurd ((contains_map_fst mf.entries m.mediaId).mp hc) hne
  · rw [filterPendingMemories, filterPendingMemories, List.filter_filter]
    congr 1
    funext m
    exact Bool.and_self _
  · rw [filterPendingMemories, filterPendingMemories, List.filter_filter]
    congr 1
    funext m
    show (!((getDownloadedIds (addManifestEntry mf X fp fs now).1).contains m.mediaId)) = _
    simp only [getDownloadedIds, addManifestEntry]
    rw [contains_keys_recordSet]
    simp [Bool.not_or, Bool.and_comm]

/-- C9: `loadManifest` on a destination root with no manifest file
(`ENOENT`) returns a fresh empty manifest — current version, empty entries,
the given output directory — rather than an error; and on a parsed manifest
whose version differs from the current version it returns a fresh empty
manifest together with a version-mismatch warning, discarding (not merging)
the existing entries. -/
theorem loadManifest_spec (outputDir : String) (now : Int) (d : ExportManifest) :
    loadManifest outputDir now .enoent = .ok (createManifest outputDir now, []) ∧
      (createManifest outputDir now).version = MANIFEST_VERSION ∧
      (createManifest outputDir now).entries = [] ∧
      (createManifest outputDir now).outputDir = outputDir ∧
      (d.version ≠ MANIFEST_VERSION →
        loadManifest outputDir now (.parsed d) =
          .ok (createManifest outputDir now,
            ["Manifest version mismatch: expected " ++ toString MANIFEST_VERSION ++
              ", got " ++ toString d.version ++ ". Creating new manifest."])) := by
  refine ⟨rfl, rfl, rfl, rfl, fun h => ?_⟩
  simp [loadManifest, h]

/-- Witness for C9 at a stored manifest of version 2: its entries are
discarded and a fresh empty manifest is returned with the warning. -/
theorem loadManifest_spec_witness :
    loadManifest "out" 5 (.parsed ⟨2, 0, 0, "out",
        [("id1", ⟨"id1", 0, "f", 1, .Image, 0⟩)]⟩) =
      .ok (createManifest "out" 5,
        ["Manifest version mismatch: expected " ++ toString MANIFEST_VERSION ++
          ", got " ++ toString (2 : Int) ++ ". Creating new manifest."]) :=
  (loadManifest_spec "out" 5 ⟨2, 0, 0, "out",
    [("id1", ⟨"id1", 0, "f", 1, .Image, 0⟩)]⟩).2.2.2.2 (by decide)

/-- `mapSet` preserves the key-consistency invariant when the stored value
is a result for a memory with the binding's key. -/
theorem mapSet_keyConsistent (results : List (String × BatchDownloadResult))
    (k : String) (v : BatchDownloadResult) (h : keyConsistent results)
    (hv : v.memory.mediaId = k) : keyConsistent (mapSet results k v) := by
  induction results with
  | nil =>
    intro p hp
    simp only [mapSet, List.mem_singleton] at hp
    subst hp
    exact hv
  | cons q rest ih =>
    obtain ⟨k', v'⟩ := q
    have hq : keyConsistent rest := fun p hp => h p (List.mem_cons_of_mem _ hp)
    by_cases hk : k' = k
    · intro p hp
      simp only [mapSet, if_pos hk, List.mem_cons] at hp
      rcases hp with hp | hp
      · subst hp; exact hv
      · exact h p (List.mem_cons_of_mem _ hp)
    · intro p hp
      simp only [mapSet, if_neg hk, List.mem_cons] at hp
      rcases hp with hp | hp
      · subst hp; exact h (k', v') (List.mem_cons_self _ _)
      · exact ih hq p hp

/-- The stored batch result is always for the popped memory itself. -/
theorem workerResultFor_memory (m : SnapchatMemory) (run : DownloadRun) :
    (workerResultFor m run).memory = m := by
  unfold workerResultFor
  cases run.result <;> rfl

/-- The worker drain preserves the key-consistency invariant of the shared
results map. -/
theorem downloadWorker_keyConsistent (envOf : SnapchatMemory → Nat → AttemptEnv)
    (randOf : SnapchatMemory → Nat → Rat) (maxRetries : Nat) (aborted : Nat → Bool) :
    ∀ (queue : List SnapchatMemory) (results : List (String × BatchDownloadResult))
      (iteration : Nat), keyConsistent results →
      keyConsistent (downloadWorker envOf randOf maxRetries aborted queue results
        iteration) := by
  intro queue
  induction queue with
  | nil => intro results it h; exact h
  | cons m rest ih =>
    intro results it h
    unfold downloadWorker
    by_cases ha : aborted it
    · simpa [ha] using h
    · simp only [ha, Bool.false_eq_true, if_false]
      exact ih _ _ (mapSet_keyConsistent _ _ _ h
        (by rw [workerResultFor_memory]))

/-- A successful map lookup returns one of the map's bindings. -/
theorem lookupKey_mem (results : List (String × BatchDownloadResult)) (k : String)
    (r : BatchDownloadResult) (h : lookupKey results k = some r) :
    (k, r) ∈ results := by
  induction results with
  | nil => exact absurd h (by simp [lookupKey])
  | cons q rest ih =>
    obtain ⟨k', v'⟩ := q
    unfold lookupKey at h
    split_ifs at h with hk
    · cases h
      subst hk
      exact List.mem_cons_self _ _
    · exact List.mem_cons_of_mem _ (ih h)

/-- C10: `downloadMemoriesConcurrent` returns exactly one result per input
memory, in the original input order — position `i` of the output is the
result looked up for the id of input memory `i`, independent of the order
in which the workers completed — and an input memory whose id was never
stored before cancellation yields the explicit cancelled-failure result
rather than being omitted. -/
theorem downloadMemoriesConcurrent_order (memories : List SnapchatMemory)
    (envOf : SnapchatMemory → Nat → AttemptEnv) (randOf : SnapchatMemory → Nat → Rat)
    (maxRetries : Nat) (aborted : Nat → Bool) :
    (downloadMemoriesConcurrent memories envOf randOf maxRetries aborted).length =
        memories.length ∧
      ∀ (i : Nat) (r : BatchDownloadResult) (m : SnapchatMemory),
        (downloadMemoriesConcurrent memories envOf randOf maxRetries aborted).get? i =
            some r →
        memories.get? i = some m →
        r.memory.mediaId = m.mediaId ∧
          (lookupKey (downloadWorker envOf randOf maxRetries aborted memories [] 0)
              m.mediaId = none → r = cancelledResult m) := by
  constructor
  · simp [downloadMemoriesConcurrent]
  · intro i r m hr hm
    unfold downloadMemoriesConcurrent at hr
    rw [List.get?_map, hm] at hr
    simp only [Option.map_some'] at hr
    injection hr with hr
    cases hl : lookupKey (downloadWorker envOf randOf maxRetries aborted memories [] 0)
        m.mediaId with
    | none =>
      rw [hl] at hr
      subst hr
      exact ⟨rfl, fun _ => rfl⟩
    | some r' =>
      rw [hl] at hr
      subst hr
      have hmem := lookupKey_mem _ _ _ hl
      have hkc := downloadWorker_keyConsistent envOf randOf maxRetries aborted memories
        [] 0 (fun p hp => absurd hp (List.not_mem_nil p))
      exact ⟨hkc (m.mediaId, r') hmem, fun hnone => absurd hnone (by simp)⟩

/-- Witness for C10: a batch of one memory cancelled before any pop yields
the cancelled-failure result, whose id matches the input memory's id. -/
theorem downloadMemoriesConcurrent_order_witness :
    (cancelledResult ⟨0, .Image, none, "u", none, "id1"⟩).memory.mediaId = "id1" ∧
      cancelledResult ⟨0, .Image, none, "u", none, "id1"⟩ =
        cancelledResult ⟨0, .Image, none, "u", none, "id1"⟩ := by
  have h := (downloadMemoriesConcurrent_order [⟨0, .Image, none, "u", none, "id1"⟩]
      (fun _ _ => ⟨.thrown .nonError, .thrown .nonError⟩) (fun _ _ => 0) 0
      (fun _ => true)).2 0 (cancelledResult ⟨0, .Image, none, "u", none, "id1"⟩)
      ⟨0, .Image, none, "u", none, "id1"⟩ rfl rfl
  exact ⟨h.1, h.2 rfl⟩

end SnapExport
